import Mathlib

/-!
Verification of the fivenines telemetry agent against its specification.

The development shallowly embeds the agent's core runtime machinery:

* `SynchronizationQueue.put`/`clear` (src/fivenines_agent/synchronization_queue.py)
* the config validator (src/fivenines_agent/config_schema.py)
* the synchronizer's retry/backoff loop, config adoption and connection
  establishment (src/fivenines_agent/synchronizer.py)
* the collector registry dispatch with per-call fault isolation
  (src/fivenines_agent/collectors.py)

Python values that flow through the validator are modelled by the inductive
type `PyVal` (None, bool, int, str, list, dict with string keys, in insertion
order).  Machine-level aspects that the claims do not touch (floats, non-string
dict keys, unicode digit parsing) are outside the model.
-/

namespace Fivenines

/-- A Python value as it appears in the agent's JSON-derived config dicts.
Dicts are insertion-ordered association lists with string keys, matching how
Python dict equality and iteration order behave for JSON-decoded objects. -/
inductive PyVal where
  | none
  | bool (b : Bool)
  | int (n : Int)
  | str (s : String)
  | list (xs : List PyVal)
  | dict (entries : List (String × PyVal))
deriving Repr

/-- Python truthiness (`bool(v)`): None/False/0/""/[]/\x7b\x7d are falsy. -/
def pyTruthy : PyVal → Bool
  | .none => false
  | .bool b => b
  | .int n => n != 0
  | .str s => !s.isEmpty
  | .list xs => !xs.isEmpty
  | .dict es => !es.isEmpty

/-- `d.get(k, dflt)` on a Python dict: first matching key, else the default. -/
def pyGet : List (String × PyVal) → String → PyVal → PyVal
  | [], _, dflt => dflt
  | (k', v) :: rest, k, dflt => if k' = k then v else pyGet rest k dflt

/-- `d.get(k)` (default None). -/
def pyGetN (d : List (String × PyVal)) (k : String) : PyVal :=
  pyGet d k .none

/-- Tail of a digit run in a Python int literal: digits, with single
underscores allowed only between digits (`int("4_2") = 42`). -/
def pyDigitTail : List Char → Bool
  | [] => true
  | '_' :: c :: rest => c.isDigit && pyDigitTail rest
  | ['_'] => false
  | c :: rest => c.isDigit && pyDigitTail rest

/-- A valid Python base-10 digit run (nonempty, underscores only between
digits). -/
def pyDigitRun (cs : List Char) : Bool :=
  match cs with
  | [] => false
  | c :: rest => c.isDigit && pyDigitTail rest

/-- Numeric value of a digit run, ignoring underscores. -/
def digitsToNat (cs : List Char) : Nat :=
  (cs.filter (fun c => c != '_')).foldl (fun acc c => 10 * acc + (c.toNat - 48)) 0

/-- Python `int(s)` on a string: optional surrounding whitespace, optional
sign, digit run with single interior underscores; `none` models ValueError. -/
def pyIntOfString : String → Option Int := fun s =>
  let t := s.trim
  let (neg, body) :=
    if t.startsWith "-" then (true, t.drop 1)
    else if t.startsWith "+" then (false, t.drop 1)
    else (false, t)
  if pyDigitRun body.toList then
    let v : Int := Int.ofNat (digitsToNat body.toList)
    some (if neg then -v else v)
  else Option.none

/-- Python `int(v)` as used in `_clamp` and the port checks: ints pass
through, bools coerce to 0/1 (bool is an int subclass), strings parse in base
10; anything else raises TypeError, modelled as `none`. -/
def pyToInt : PyVal → Option Int
  | .int n => some n
  | .bool b => some (if b then 1 else 0)
  | .str s => pyIntOfString s
  | _ => Option.none

/-- `_clamp(value, lo, hi, default)` from config_schema.py: convert with
`int()`, fall back to the default on TypeError/ValueError, clamp to bounds. -/
def clamp (value : PyVal) (lo hi dft : Int) : Int :=
  match pyToInt value with
  | Option.none => dft
  | some v => if v < lo then lo else if v > hi then hi else v

theorem clamp_mem (value : PyVal) (lo hi dft : Int) (hlo : lo ≤ dft) (hhi : dft ≤ hi) :
    lo ≤ clamp value lo hi dft ∧ clamp value lo hi dft ≤ hi := by
  unfold clamp
  cases pyToInt value with
  | none => exact ⟨hlo, hhi⟩
  | some v =>
    by_cases h1 : v < lo
    · simp [h1]; omega
    · by_cases h2 : v > hi
      · simp [h1, h2]; omega
      · simp [h1, h2]; omega

theorem clamp_int_eval (n lo hi dft : Int) :
    clamp (.int n) lo hi dft = if n < lo then lo else if n > hi then hi else n := by
  rfl

theorem clamp_non_numeric (v : PyVal) (lo hi dft : Int) (h : pyToInt v = Option.none) :
    clamp v lo hi dft = dft := by
  unfold clamp
  rw [h]

/-! ## Delivery queue (src/fivenines_agent/synchronization_queue.py)

`SynchronizationQueue.put` holds the mutex, and when the current size already
*exceeds* `maxsize` it removes the oldest entry before appending; it never
blocks the producer.  The queue contents are modelled as a list, oldest
first. -/

/-- `SynchronizationQueue.put`: drop the oldest entry iff the current size
exceeds `maxsize`, then append. -/
def queuePut (maxsize : Nat) (q : List α) (x : α) : List α :=
  if q.length > maxsize then q.tail ++ [x] else q ++ [x]

/-- Run a sequence of `put` operations against an initially empty queue. -/
def queueRun (maxsize : Nat) (ops : List α) : List α :=
  ops.foldl (queuePut maxsize) []

theorem queuePut_length_le (C : Nat) (q : List α) (x : α) (h : q.length ≤ C + 1) :
    (queuePut C q x).length ≤ C + 1 := by
  unfold queuePut
  by_cases hlen : q.length > C
  · simp only [hlen, if_true, List.length_append, List.length_tail]
    simp
    omega
  · simp only [hlen, if_false, List.length_append]
    simp
    omega

theorem queuePut_suffix (C : Nat) (q l : List α) (x : α) (h : q <:+ l) :
    queuePut C q x <:+ l ++ [x] := by
  unfold queuePut
  by_cases hlen : q.length > C
  · simp only [hlen, if_true]
    have htail : q.tail <:+ l := (List.tail_suffix q).trans h
    obtain ⟨p, hp⟩ := htail
    exact ⟨p, by rw [← List.append_assoc, hp]⟩
  · simp only [hlen, if_false]
    obtain ⟨p, hp⟩ := h
    exact ⟨p, by rw [← List.append_assoc, hp]⟩

theorem queueRun_aux (C : Nat) (ops : List α) :
    ∀ (q l : List α), q.length ≤ C + 1 → q <:+ l →
      (ops.foldl (queuePut C) q).length ≤ C + 1 ∧
        ops.foldl (queuePut C) q <:+ l ++ ops := by
  induction ops with
  | nil =>
    intro q l hlen hsuf
    simpa using ⟨hlen, hsuf⟩
  | cons x rest ih =>
    intro q l hlen hsuf
    have hstep := ih (queuePut C q x) (l ++ [x])
      (queuePut_length_le C q x hlen) (queuePut_suffix C q l x hsuf)
    simpa [List.append_assoc] using hstep

/-! ## URL parsing and loopback checks (src/fivenines_agent/config_schema.py)

`_is_loopback_url` runs `urllib.parse.urlparse(url).hostname` and compares the
lowercased hostname against the literals `localhost`, `127.0.0.1`, `::1`.
The hostname extraction below transcribes CPython's `urlsplit`/`_hostinfo`
for the subset the validator can encounter: strip unsafe bytes, split off a
`scheme:` prefix, read the netloc after `//`, drop userinfo up to the last
`@`, and take either the `[...]`-bracketed host or everything before the
first `:`.  A bracket mismatch raises ValueError in CPython; the validator
catches every exception and returns False, modelled by `none`. -/

/-- ASCII lowercasing of one character (hostnames here are ASCII). -/
def lowerChar (c : Char) : Char :=
  if 65 ≤ c.toNat ∧ c.toNat ≤ 90 then Char.ofNat (c.toNat + 32) else c

/-- ASCII `str.lower()`. -/
def lowerStr (s : String) : String :=
  String.mk (s.toList.map lowerChar)

/-- Characters allowed in a URL scheme after the first letter. -/
def isSchemeChar (c : Char) : Bool :=
  c.isAlpha || c.isDigit || c = '+' || c = '-' || c = '.'

/-- CPython cleanup: lstrip C0 controls and space, remove tab/CR/LF. -/
def urlClean (url : String) : List Char :=
  ((url.toList.dropWhile (fun c => c.toNat ≤ 0x20)).filter
    (fun c => c ≠ '\t' ∧ c ≠ '\r' ∧ c ≠ '\n'))

/-- Strip a `scheme:` prefix when the part before the first `:` is a valid
scheme (leading ASCII letter, then scheme chars). -/
def dropScheme (cs : List Char) : List Char :=
  let before := cs.takeWhile (fun c => c ≠ ':')
  if before.length < cs.length ∧ before.length > 0 ∧
      (before.headD 'a').isAlpha ∧ before.all isSchemeChar then
    cs.drop (before.length + 1)
  else cs

/-- The netloc: the run after a leading `//`, up to `/`, `?` or `#`. -/
def netlocOf (cs : List Char) : List Char :=
  match cs with
  | '/' :: '/' :: rest => rest.takeWhile (fun c => c ≠ '/' ∧ c ≠ '?' ∧ c ≠ '#')
  | _ => []

/-- The part of the netloc after the last `@` (userinfo stripped). -/
def afterLastChar (c : Char) (cs : List Char) : List Char :=
  cs.foldl (fun acc x => if x = c then [] else acc ++ [x]) []

/-- `urlparse(url).hostname`: lowercased host, `none` when absent or when
urlsplit raises (mismatched brackets). -/
def urlHostname (url : String) : Option String :=
  let netloc := netlocOf (dropScheme (urlClean url))
  if (netloc.contains '[' && !netloc.contains ']') ||
      (netloc.contains ']' && !netloc.contains '[') then
    Option.none
  else
    let hostinfo := afterLastChar '@' netloc
    let host :=
      if hostinfo.contains '[' then
        ((hostinfo.dropWhile (fun c => c ≠ '[')).drop 1).takeWhile (fun c => c ≠ ']')
      else hostinfo.takeWhile (fun c => c ≠ ':')
    if host.isEmpty then Option.none else some (lowerStr (String.mk host))

/-- The literal loopback hosts accepted by the validator. -/
def LOOPBACK_HOSTS : List String := ["localhost", "127.0.0.1", "::1"]

/-- `_is_loopback_url`: parse, take the hostname, compare lowercased against
the loopback literals; any parse failure yields False. -/
def isLoopbackUrl (url : String) : Bool :=
  match urlHostname url with
  | Option.none => false
  | some h => LOOPBACK_HOSTS.contains (lowerStr h)

/-- `_is_loopback_url` applied to an arbitrary config value: `urlparse` of a
non-string raises, which the `except Exception` arm turns into False. -/
def isLoopbackUrlPy : PyVal → Bool
  | .str s => isLoopbackUrl s
  | _ => false

/-- `_is_loopback_host`: `str(host).lower()` against the loopback literals.
`str()` of the non-string values in the model ("None", "True"/"False", digit
strings, bracketed container reprs) never renders as one of the three
literals, so only string hosts can match. -/
def isLoopbackHostPy : PyVal → Bool
  | .str s => LOOPBACK_HOSTS.contains (lowerStr s)
  | _ => false

/-- `_strip_crlf`: remove every CR and LF from a string. -/
def stripCRLF (s : String) : String :=
  String.mk (s.toList.filter (fun c => c ≠ '\r' ∧ c ≠ '\n'))

/-- `_sanitize_nginx`: the status page URL (default loopback) must be a
loopback URL, otherwise the collector is disabled (`None`). -/
def sanitizeNginx (cfg : List (String × PyVal)) : PyVal :=
  let url := pyGet cfg "status_page_url" (.str "http://127.0.0.1:8080/nginx_status")
  if isLoopbackUrlPy url then .dict [("status_page_url", url)] else .none

/-- Decimal value of a digit list. -/
def decVal (cs : List Char) : Nat :=
  cs.foldl (fun a c => 10 * a + (c.toNat - 48)) 0

/-- Split a character list on dots. -/
def splitDot (cs : List Char) : List (List Char) :=
  cs.foldr
    (fun c acc =>
      match acc with
      | [] => [[c]]
      | h :: t => if c = '.' then [] :: h :: t else (c :: h) :: t)
    [[]]

/-- Spec-side notion of a loopback host: the literal `localhost`, the IPv6
loopback `::1`, or any IPv4 address in 127.0.0.0/8 ("must resolve to a
loopback address/hostname"). -/
def specLoopbackHost (h : String) : Bool :=
  let hl := lowerStr h
  hl = "localhost" || hl = "::1" ||
    (match splitDot hl.toList with
     | [a, b, c, d] =>
       [a, b, c, d].all
         (fun o => !o.isEmpty && o.all Char.isDigit && decVal o ≤ 255)
         && decVal a = 127
     | _ => false)

/-- Spec-side loopback URL: the URL's hostname addresses the local machine. -/
def specIsLoopbackUrl (url : String) : Bool :=
  match urlHostname url with
  | Option.none => false
  | some h => specLoopbackHost h

/-! ## Field sanitizers (src/fivenines_agent/config_schema.py)

Each `_sanitize_*` helper returns either a cleaned parameter dict or `None`
(the collector is disabled); both outcomes are `PyVal` values.  The helpers
below keep the source's field order, defaults and bounds. -/

/-- A field that must be `None` or a string, kept as-is (proxmox tokens). -/
def strOrNone : PyVal → Option PyVal
  | .none => some .none
  | .str s => some (.str s)
  | _ => Option.none

/-- A password field: `None` stays, strings are CRLF-stripped, anything else
disables the collector. -/
def passwordField : PyVal → Option PyVal
  | .none => some .none
  | .str s => some (.str (stripCRLF s))
  | _ => Option.none

/-- A port field: `int()` conversion must succeed and land in [1, 65535]. -/
def portField (v : PyVal) (dflt : Int) : Option Int :=
  match pyToInt (match v with | .none => .int dflt | w => w) with
  | Option.none => Option.none
  | some p => if 1 ≤ p ∧ p ≤ 65535 then some p else Option.none

/-- `_sanitize_redis`. -/
def sanitizeRedis (cfg : List (String × PyVal)) : PyVal :=
  match pyToInt (pyGet cfg "port" (.int 6379)) with
  | Option.none => .none
  | some p =>
    if 1 ≤ p ∧ p ≤ 65535 then
      match passwordField (pyGet cfg "password" .none) with
      | some pw => .dict [("port", .int p), ("password", pw)]
      | Option.none => .none
    else .none

/-- `_sanitize_caddy`. -/
def sanitizeCaddy (cfg : List (String × PyVal)) : PyVal :=
  let url := pyGet cfg "admin_api_url" (.str "http://localhost:2019")
  if isLoopbackUrlPy url then .dict [("admin_api_url", url)] else .none

/-- `_sanitize_postgresql`. -/
def sanitizePostgresql (cfg : List (String × PyVal)) : PyVal :=
  let host := pyGet cfg "host" (.str "localhost")
  if isLoopbackHostPy host then
    match pyToInt (pyGet cfg "port" (.int 5432)) with
    | Option.none => .none
    | some p =>
      if 1 ≤ p ∧ p ≤ 65535 then
        match pyGet cfg "user" (.str "postgres") with
        | .str u =>
          match pyGet cfg "database" (.str "postgres") with
          | .str dbname =>
            match passwordField (pyGet cfg "password" .none) with
            | some pw =>
              .dict [("host", host), ("port", .int p), ("user", .str u),
                     ("database", .str dbname), ("password", pw)]
            | Option.none => .none
          | _ => .none
        | _ => .none
      else .none
  else .none

/-- `_sanitize_proxmox`: the `verify_ssl` flag is always forced to True. -/
def sanitizeProxmox (cfg : List (String × PyVal)) : PyVal :=
  let host := pyGet cfg "host" (.str "localhost")
  if isLoopbackHostPy host then
    match pyToInt (pyGet cfg "port" (.int 8006)) with
    | Option.none => .none
    | some p =>
      if 1 ≤ p ∧ p ≤ 65535 then
        match strOrNone (pyGet cfg "token_id" .none),
            strOrNone (pyGet cfg "token_secret" .none) with
        | some tid, some tsec =>
          .dict [("host", host), ("port", .int p), ("token_id", tid),
                 ("token_secret", tsec), ("verify_ssl", .bool true)]
        | _, _ => .none
      else .none
  else .none

/-- `startswith` on character lists. -/
def startsWithChars (cs pre : List Char) : Bool :=
  decide (cs.take pre.length = pre)

/-- `_sanitize_docker`: the socket URL must be absent/None or a `unix://`
string. -/
def sanitizeDocker (cfg : List (String × PyVal)) : PyVal :=
  match pyGet cfg "socket_url" .none with
  | .none => .dict [("socket_url", .none)]
  | .str s =>
    if startsWithChars s.toList "unix://".toList then .dict [("socket_url", .str s)]
    else .none
  | _ => .none

/-- `_sanitize_qemu`: a missing URI yields an empty dict; present URIs must
be on the allow-list. -/
def sanitizeQemu (cfg : List (String × PyVal)) : PyVal :=
  match pyGet cfg "uri" .none with
  | .none => .dict []
  | .str s =>
    if s = "qemu:///system" ∨ s = "qemu:///session" then .dict [("uri", .str s)]
    else .none
  | _ => .none

/-- One entry of `monitored_ports`: `int()` must succeed and be in range,
invalid entries are skipped. -/
def monitoredPort (p : PyVal) : Option PyVal :=
  match pyToInt p with
  | Option.none => Option.none
  | some n => if 1 ≤ n ∧ n ≤ 65535 then some (PyVal.int n) else Option.none

/-- `_sanitize_ports`: the list is filtered element-wise. -/
def sanitizePorts (cfg : List (String × PyVal)) : PyVal :=
  match pyGet cfg "monitored_ports" (.list []) with
  | .list ps => .dict [("monitored_ports", .list (ps.filterMap monitoredPort))]
  | _ => .none

/-- One `ping` entry survives when its value is a nonempty string (keys are
strings by construction of the model). -/
def pingEntryOk (e : String × PyVal) : Bool :=
  match e.2 with
  | .str s => !s.isEmpty
  | _ => false

/-- `_sanitize_ping`. -/
def sanitizePing : PyVal → PyVal
  | .dict es =>
    let kept := es.filter pingEntryOk
    if kept.isEmpty then .none else .dict kept
  | _ => .none

/-- `_validate_request_options`: clamp the three numeric tunables. -/
def validateRequestOptions (opts : List (String × PyVal)) : List (String × PyVal) :=
  [("timeout", .int (clamp (pyGet opts "timeout" (.int 5)) 1 60 5)),
   ("retry", .int (clamp (pyGet opts "retry" (.int 3)) 1 10 3)),
   ("retry_interval", .int (clamp (pyGet opts "retry_interval" (.int 5)) 1 120 5))]

/-- The boolean feature flags validated by `bool(val) if val is not None`. -/
def BOOL_FLAGS : List String :=
  ["cpu", "memory", "network", "partitions", "io", "smart_storage_health",
   "raid_storage_health", "processes", "temperatures", "fans", "fail2ban",
   "ipv4", "ipv6"]

/-- `bool(val) if val is not None else None`. -/
def flagVal : PyVal → PyVal
  | .none => .none
  | v => .bool (pyTruthy v)

/-- The dispatch on a kwargs-collector's raw value: falsy values are
preserved as-is (disabled), dicts are sanitized (possibly to `None`), other
truthy scalars enable the collector with no kwargs. -/
def sanitizeCollector (san : List (String × PyVal) → PyVal) (rawVal : PyVal) : PyVal :=
  if pyTruthy rawVal then
    match rawVal with
    | .dict d => san d
    | v => v
  else rawVal

/-- The `collector_sanitizers` table, in source (dict insertion) order. -/
def COLLECTOR_SANITIZERS : List (String × (List (String × PyVal) → PyVal)) :=
  [("redis", sanitizeRedis), ("nginx", sanitizeNginx), ("caddy", sanitizeCaddy),
   ("postgresql", sanitizePostgresql), ("proxmox", sanitizeProxmox),
   ("docker", sanitizeDocker), ("qemu", sanitizeQemu), ("ports", sanitizePorts)]

/-- The `ping` section of `validate_config`:
`_sanitize_ping(raw.get("ping")) if raw.get("ping") else None`. -/
def pingField (p : PyVal) : PyVal :=
  if pyTruthy p then sanitizePing p else .none

/-- The successful body of `validate_config`, given the request-options dict
(the raw one when truthy, the empty dict otherwise).  Output keys follow the
source's insertion order. -/
def validateConfigOk (raw : List (String × PyVal)) (reqOpts : List (String × PyVal)) :
    List (String × PyVal) :=
  [("enabled", .bool (pyTruthy (pyGet raw "enabled" (.bool false)))),
   ("interval", .int (clamp (pyGet raw "interval" (.int 60)) 30 3600 60)),
   ("request_options", .dict (validateRequestOptions reqOpts))]
  ++ BOOL_FLAGS.map (fun k => (k, flagVal (pyGetN raw k)))
  ++ COLLECTOR_SANITIZERS.map (fun e => (e.1, sanitizeCollector e.2 (pyGetN raw e.1)))
  ++ [("ping", pingField (pyGetN raw "ping")),
      ("packages", pyGetN raw "packages")]

/-- `validate_config`: total except for one uncaught exception — a truthy
non-dict `request_options` raises AttributeError inside
`_validate_request_options` (`opts.get` on a non-dict), modelled as
`.error`. -/
def validateConfig (raw : List (String × PyVal)) :
    Except Unit (List (String × PyVal)) :=
  let ro := pyGetN raw "request_options"
  if pyTruthy ro then
    match ro with
    | .dict d => .ok (validateConfigOk raw d)
    | _ => .error ()
  else .ok (validateConfigOk raw [])

/-! ### Idempotence of the individual sanitizers -/

theorem stripCRLF_idem (s : String) : stripCRLF (stripCRLF s) = stripCRLF s := by
  unfold stripCRLF
  simp [List.filter_filter]

theorem passwordField_fix (v pw : PyVal) (h : passwordField v = some pw) :
    passwordField pw = some pw := by
  cases v with
  | none => simp [passwordField] at h; subst h; rfl
  | str s =>
    simp [passwordField] at h
    subst h
    simp [passwordField, stripCRLF_idem]
  | bool b => simp [passwordField] at h
  | int n => simp [passwordField] at h
  | list xs => simp [passwordField] at h
  | dict es => simp [passwordField] at h

theorem strOrNone_fix (v t : PyVal) (h : strOrNone v = some t) :
    strOrNone t = some t := by
  cases v with
  | none => simp [strOrNone] at h; subst h; rfl
  | str s => simp [strOrNone] at h; subst h; rfl
  | bool b => simp [strOrNone] at h
  | int n => simp [strOrNone] at h
  | list xs => simp [strOrNone] at h
  | dict es => simp [strOrNone] at h

theorem clamp_int_in_range (n lo hi dft : Int) (h1 : lo ≤ n) (h2 : n ≤ hi) :
    clamp (.int n) lo hi dft = n := by
  rw [clamp_int_eval]
  have hn1 : ¬ n < lo := by omega
  have hn2 : ¬ n > hi := by omega
  simp [hn1, hn2]

theorem clamp_idem (v : PyVal) (lo hi dft : Int) (hlo : lo ≤ dft) (hhi : dft ≤ hi) :
    clamp (.int (clamp v lo hi dft)) lo hi dft = clamp v lo hi dft := by
  obtain ⟨h1, h2⟩ := clamp_mem v lo hi dft hlo hhi
  exact clamp_int_in_range _ lo hi dft h1 h2

theorem validateRequestOptions_idem (opts : List (String × PyVal)) :
    validateRequestOptions (validateRequestOptions opts) = validateRequestOptions opts := by
  simp only [validateRequestOptions, pyGet]
  norm_num
  refine ⟨?_, ?_, ?_⟩
  · exact clamp_idem _ 1 60 5 (by norm_num) (by norm_num)
  · exact clamp_idem _ 1 10 3 (by norm_num) (by norm_num)
  · exact clamp_idem _ 1 120 5 (by norm_num) (by norm_num)

theorem flagVal_idem (v : PyVal) : flagVal (flagVal v) = flagVal v := by
  cases v <;> rfl

theorem sanitizeRedis_fix (d d' : List (String × PyVal))
    (h : sanitizeRedis d = .dict d') : sanitizeRedis d' = .dict d' := by
  unfold sanitizeRedis at h
  split at h
  · simp at h
  · rename_i p hp
    split at h
    · rename_i hr
      split at h
      · rename_i pw hpw
        simp only [PyVal.dict.injEq] at h
        subst h
        unfold sanitizeRedis
        simp only [pyGet, pyToInt, String.reduceEq, reduceIte]
        rw [if_pos hr, passwordField_fix _ _ hpw]
      · simp at h
    · simp at h

theorem sanitizeNginx_fix (d d' : List (String × PyVal))
    (h : sanitizeNginx d = .dict d') : sanitizeNginx d' = .dict d' := by
  unfold sanitizeNginx at h
  by_cases hl : isLoopbackUrlPy (pyGet d "status_page_url"
      (.str "http://127.0.0.1:8080/nginx_status"))
  · rw [if_pos hl] at h
    simp only [PyVal.dict.injEq] at h
    subst h
    unfold sanitizeNginx
    simp only [pyGet, String.reduceEq, reduceIte]
    rw [if_pos hl]
  · rw [if_neg hl] at h; simp at h

theorem sanitizeCaddy_fix (d d' : List (String × PyVal))
    (h : sanitizeCaddy d = .dict d') : sanitizeCaddy d' = .dict d' := by
  unfold sanitizeCaddy at h
  by_cases hl : isLoopbackUrlPy (pyGet d "admin_api_url" (.str "http://localhost:2019"))
  · rw [if_pos hl] at h
    simp only [PyVal.dict.injEq] at h
    subst h
    unfold sanitizeCaddy
    simp only [pyGet, String.reduceEq, reduceIte]
    rw [if_pos hl]
  · rw [if_neg hl] at h; simp at h

theorem sanitizePostgresql_fix (d d' : List (String × PyVal))
    (h : sanitizePostgresql d = .dict d') : sanitizePostgresql d' = .dict d' := by
  simp only [sanitizePostgresql] at h
  repeat' split at h
  all_goals try cases h
  unfold sanitizePostgresql
  simp only [pyGet, pyToInt, String.reduceEq, reduceIte]
  rw [if_pos (by assumption), if_pos (by assumption),
    passwordField_fix _ _ (by assumption)]

theorem sanitizeProxmox_fix (d d' : List (String × PyVal))
    (h : sanitizeProxmox d = .dict d') : sanitizeProxmox d' = .dict d' := by
  simp only [sanitizeProxmox] at h
  repeat' split at h
  all_goals try cases h
  unfold sanitizeProxmox
  simp only [pyGet, pyToInt, String.reduceEq, reduceIte]
  rw [if_pos (by assumption), if_pos (by assumption),
    strOrNone_fix _ _ (by assumption), strOrNone_fix _ _ (by assumption)]

theorem sanitizeDocker_fix (d d' : List (String × PyVal))
    (h : sanitizeDocker d = .dict d') : sanitizeDocker d' = .dict d' := by
  unfold sanitizeDocker at h
  split at h
  · simp only [PyVal.dict.injEq] at h
    subst h
    rfl
  · rename_i s hs
    split at h
    · rename_i hpre
      simp only [PyVal.dict.injEq] at h
      subst h
      unfold sanitizeDocker
      simp only [pyGet, String.reduceEq, reduceIte]
      rw [if_pos hpre]
    · simp at h
  · simp at h

theorem sanitizeQemu_fix (d d' : List (String × PyVal))
    (h : sanitizeQemu d = .dict d') (hne : d' ≠ []) : sanitizeQemu d' = .dict d' := by
  unfold sanitizeQemu at h
  split at h
  · simp only [PyVal.dict.injEq] at h
    exact absurd h.symm hne
  · rename_i s hs
    split at h
    · rename_i hal
      simp only [PyVal.dict.injEq] at h
      subst h
      unfold sanitizeQemu
      simp only [pyGet, String.reduceEq, reduceIte]
      rw [if_pos hal]
    · simp at h
  · simp at h

theorem monitoredPort_fix (v w : PyVal) (h : monitoredPort v = some w) :
    monitoredPort w = some w := by
  unfold monitoredPort at h
  split at h
  · simp at h
  · rename_i n hn
    split at h
    · rename_i hr
      simp only [Option.some.injEq] at h
      subst h
      unfold monitoredPort
      simp only [pyToInt]
      rw [if_pos hr]
    · simp at h

theorem filterMap_monitoredPort_idem (ps : List PyVal) :
    (ps.filterMap monitoredPort).filterMap monitoredPort = ps.filterMap monitoredPort := by
  induction ps with
  | nil => rfl
  | cons p t ih =>
    cases hm : monitoredPort p with
    | none => simp [List.filterMap_cons, hm, ih]
    | some w =>
      simp [List.filterMap_cons, hm, monitoredPort_fix _ _ hm, ih]

theorem sanitizePorts_fix (d d' : List (String × PyVal))
    (h : sanitizePorts d = .dict d') : sanitizePorts d' = .dict d' := by
  unfold sanitizePorts at h
  split at h
  · rename_i ps hps
    simp only [PyVal.dict.injEq] at h
    subst h
    unfold sanitizePorts
    simp only [pyGet, String.reduceEq, reduceIte]
    rw [filterMap_monitoredPort_idem]
  · simp at h

theorem pingFilter_idem (es : List (String × PyVal)) :
    (es.filter pingEntryOk).filter pingEntryOk = es.filter pingEntryOk := by
  induction es with
  | nil => rfl
  | cons e t ih =>
    by_cases hp : pingEntryOk e
    · simp [List.filter_cons, hp, ih]
    · simp [List.filter_cons, hp, ih]

theorem sanitizePing_fix (v : PyVal) (d' : List (String × PyVal))
    (h : sanitizePing v = .dict d') : sanitizePing (.dict d') = .dict d' := by
  simp only [sanitizePing] at h
  repeat' split at h
  all_goals try cases h
  unfold sanitizePing
  simp only [pingFilter_idem]
  rw [if_neg (by assumption)]

/-- Second application of the kwargs-collector dispatch is the identity:
everything except a sanitized nonempty dict is preserved by construction, and
each sanitizer fixes its own nonempty-dict output. -/
theorem sanitizeCollector_not_dict (san : List (String × PyVal) → PyVal) (v : PyVal)
    (h : ∀ d, v ≠ .dict d) : sanitizeCollector san v = v := by
  unfold sanitizeCollector
  cases v with
  | dict d => exact absurd rfl (h d)
  | none => rfl
  | bool b => split <;> rfl
  | int n => split <;> rfl
  | str s => split <;> rfl
  | list xs => split <;> rfl

theorem sanitizeCollector_idem (san : List (String × PyVal) → PyVal)
    (hfix : ∀ d d', san d = .dict d' → d' ≠ [] → san d' = .dict d') (v : PyVal) :
    sanitizeCollector san (sanitizeCollector san v) = sanitizeCollector san v := by
  by_cases ht : pyTruthy v
  · cases v with
    | none => simp [pyTruthy] at ht
    | bool b =>
      have hv := sanitizeCollector_not_dict san (.bool b) (fun _ h => PyVal.noConfusion h)
      rw [hv]; exact hv
    | int n =>
      have hv := sanitizeCollector_not_dict san (.int n) (fun _ h => PyVal.noConfusion h)
      rw [hv]; exact hv
    | str s =>
      have hv := sanitizeCollector_not_dict san (.str s) (fun _ h => PyVal.noConfusion h)
      rw [hv]; exact hv
    | list xs =>
      have hv := sanitizeCollector_not_dict san (.list xs) (fun _ h => PyVal.noConfusion h)
      rw [hv]; exact hv
    | dict d =>
      have hv : sanitizeCollector san (.dict d) = san d := by
        unfold sanitizeCollector
        rw [if_pos ht]
      rw [hv]
      cases hs : san d with
      | none =>
        exact sanitizeCollector_not_dict san .none (fun _ h => PyVal.noConfusion h)
      | bool b =>
        exact sanitizeCollector_not_dict san (.bool b) (fun _ h => PyVal.noConfusion h)
      | int n =>
        exact sanitizeCollector_not_dict san (.int n) (fun _ h => PyVal.noConfusion h)
      | str s =>
        exact sanitizeCollector_not_dict san (.str s) (fun _ h => PyVal.noConfusion h)
      | list xs =>
        exact sanitizeCollector_not_dict san (.list xs) (fun _ h => PyVal.noConfusion h)
      | dict d' =>
        cases hd' : d' with
        | nil => rfl
        | cons e t =>
          have htr : pyTruthy (PyVal.dict (e :: t)) = true := rfl
          unfold sanitizeCollector
          rw [if_pos htr]
          exact hfix d (e :: t) (hd' ▸ hs) (by simp)
  · have hv : sanitizeCollector san v = v := by
      unfold sanitizeCollector
      rw [if_neg ht]
    rw [hv]; exact hv

example : isLoopbackUrl "http://127.0.0.1:8080/x" = true := by rfl
example : isLoopbackUrl "http://169.254.169.254/" = false := by rfl
example : isLoopbackUrl "http://LocalHost:2019" = true := by rfl
example : isLoopbackUrl "http://[::1]:9/x" = true := by rfl
example : isLoopbackUrl "127.0.0.1:8080/x" = false := by rfl
example : isLoopbackUrl "http://user@127.0.0.1/" = true := by rfl
example : specIsLoopbackUrl "http://127.0.0.2/" = true := by rfl
example : isLoopbackUrl "http://127.0.0.2/" = false := by rfl

theorem pingField_idem (p : PyVal) : pingField (pingField p) = pingField p := by
  by_cases ht : pyTruthy p
  · unfold pingField
    rw [if_pos ht]
    cases hs : sanitizePing p with
    | none => rfl
    | dict d' =>
      have hfix := sanitizePing_fix p d' hs
      have hne : d' ≠ [] := by
        simp only [sanitizePing] at hs
        split at hs
        · split at hs
          · cases hs
          · rename_i hne
            simp only [PyVal.dict.injEq] at hs
            subst hs
            simpa using hne
        · cases hs
      have htr : pyTruthy (PyVal.dict d') = true := by
        cases d' with
        | nil => exact absurd rfl hne
        | cons e t => rfl
      rw [if_pos htr, hfix]
    | bool b =>
      exfalso
      simp only [sanitizePing] at hs
      split at hs <;> [skip; cases hs]
      split at hs <;> cases hs
    | int n =>
      exfalso
      simp only [sanitizePing] at hs
      split at hs <;> [skip; cases hs]
      split at hs <;> cases hs
    | str s =>
      exfalso
      simp only [sanitizePing] at hs
      split at hs <;> [skip; cases hs]
      split at hs <;> cases hs
    | list xs =>
      exfalso
      simp only [sanitizePing] at hs
      split at hs <;> [skip; cases hs]
      split at hs <;> cases hs
  · unfold pingField
    rw [if_neg ht]
    rfl

/-- Revalidating the output of a successful `validate_config` run returns it
unchanged: every component of the constructed config is a fixed point of its
own validator. -/
theorem validateConfigOk_fix (raw reqOpts : List (String × PyVal)) :
    validateConfig (validateConfigOk raw reqOpts) = .ok (validateConfigOk raw reqOpts) := by
  have hRedis : ∀ v, sanitizeCollector sanitizeRedis (sanitizeCollector sanitizeRedis v)
      = sanitizeCollector sanitizeRedis v :=
    sanitizeCollector_idem _ (fun d d' h _ => sanitizeRedis_fix d d' h)
  have hNginx : ∀ v, sanitizeCollector sanitizeNginx (sanitizeCollector sanitizeNginx v)
      = sanitizeCollector sanitizeNginx v :=
    sanitizeCollector_idem _ (fun d d' h _ => sanitizeNginx_fix d d' h)
  have hCaddy : ∀ v, sanitizeCollector sanitizeCaddy (sanitizeCollector sanitizeCaddy v)
      = sanitizeCollector sanitizeCaddy v :=
    sanitizeCollector_idem _ (fun d d' h _ => sanitizeCaddy_fix d d' h)
  have hPg : ∀ v, sanitizeCollector sanitizePostgresql (sanitizeCollector sanitizePostgresql v)
      = sanitizeCollector sanitizePostgresql v :=
    sanitizeCollector_idem _ (fun d d' h _ => sanitizePostgresql_fix d d' h)
  have hPm : ∀ v, sanitizeCollector sanitizeProxmox (sanitizeCollector sanitizeProxmox v)
      = sanitizeCollector sanitizeProxmox v :=
    sanitizeCollector_idem _ (fun d d' h _ => sanitizeProxmox_fix d d' h)
  have hDk : ∀ v, sanitizeCollector sanitizeDocker (sanitizeCollector sanitizeDocker v)
      = sanitizeCollector sanitizeDocker v :=
    sanitizeCollector_idem _ (fun d d' h _ => sanitizeDocker_fix d d' h)
  have hQe : ∀ v, sanitizeCollector sanitizeQemu (sanitizeCollector sanitizeQemu v)
      = sanitizeCollector sanitizeQemu v :=
    sanitizeCollector_idem _ (fun d d' h hne => sanitizeQemu_fix d d' h hne)
  have hPo : ∀ v, sanitizeCollector sanitizePorts (sanitizeCollector sanitizePorts v)
      = sanitizeCollector sanitizePorts v :=
    sanitizeCollector_idem _ (fun d d' h _ => sanitizePorts_fix d d' h)
  have hint := clamp_idem (pyGet raw "interval" (.int 60)) 30 3600 60
    (by norm_num) (by norm_num)
  have htmo := clamp_idem (pyGet reqOpts "timeout" (.int 5)) 1 60 5
    (by norm_num) (by norm_num)
  have hrty := clamp_idem (pyGet reqOpts "retry" (.int 3)) 1 10 3
    (by norm_num) (by norm_num)
  have hrtv := clamp_idem (pyGet reqOpts "retry_interval" (.int 5)) 1 120 5
    (by norm_num) (by norm_num)
  simp [validateConfig, validateConfigOk, validateRequestOptions, pyGetN, pyGet,
    BOOL_FLAGS, COLLECTOR_SANITIZERS, pyTruthy,
    hRedis, hNginx, hCaddy, hPg, hPm, hDk, hQe, hPo,
    hint, htmo, hrty, hrtv, flagVal_idem, pingField_idem]

theorem validateConfig_ok_shape (raw cfg : List (String × PyVal))
    (h : validateConfig raw = .ok cfg) : ∃ d, cfg = validateConfigOk raw d := by
  simp only [validateConfig] at h
  repeat' split at h
  all_goals cases h
  all_goals exact ⟨_, rfl⟩

theorem validateConfig_bind_self (raw : List (String × PyVal)) :
    (validateConfig raw).bind validateConfig = validateConfig raw := by
  cases h : validateConfig raw with
  | error e => rfl
  | ok cfg =>
    obtain ⟨d, rfl⟩ := validateConfig_ok_shape raw cfg h
    simpa [Except.bind] using validateConfigOk_fix raw d

/-! ## Synchronizer retry loop (src/fivenines_agent/synchronizer.py, `_post`)

The loop `while try_count < retry` performs one connection + request attempt
per iteration.  Any exception or non-200 status increments `try_count`,
computes `sleep_time = retry_interval * try_count` and performs
`self._stop_event.wait(timeout=sleep_time)`; a True return (stop set) breaks
out of the loop.  `transport k` abstracts the outcome of attempt `k`
(`some r` for an HTTP 200 with parsed body `r`, `none` for any failure), and
`stopDuring k` the stop-event state during the wait after failed attempt
`k`. -/

/-- One recorded backoff wait: the nominal duration `retry_interval *
try_count` handed to `Event.wait`, and whether the wait was cut short by the
stop event (True return). -/
structure BackoffWait where
  nominal : Nat
  interrupted : Bool
deriving Repr, DecidableEq

/-- Result of the `_post` retry loop: attempts performed, parsed response
(`none` after exhaustion or stop), and the backoff waits in order. -/
structure PostResult (R : Type) where
  attempts : Nat
  result : Option R
  waits : List BackoffWait
deriving Repr

/-- The retry loop from attempt index `tc` with `fuel` remaining iterations
(`fuel = retry - tc` at entry). -/
def postAux (transport : Nat → Option R) (stopDuring : Nat → Bool)
    (retryInterval : Nat) : Nat → Nat → PostResult R
  | tc, 0 => ⟨tc, Option.none, []⟩
  | tc, fuel + 1 =>
    match transport tc with
    | some r => ⟨tc + 1, some r, []⟩
    | Option.none =>
      let sleep := retryInterval * (tc + 1)
      if stopDuring tc then ⟨tc + 1, Option.none, [⟨sleep, true⟩]⟩
      else
        let rest := postAux transport stopDuring retryInterval (tc + 1) fuel
        ⟨rest.attempts, rest.result, ⟨sleep, false⟩ :: rest.waits⟩

/-- `_post`: run the retry loop with `try_count = 0` and the configured
retry bound. -/
def post (retry : Nat) (transport : Nat → Option R) (stopDuring : Nat → Bool)
    (retryInterval : Nat) : PostResult R :=
  postAux transport stopDuring retryInterval 0 retry

/-- `d[k]` subscript access on a Python dict: `none` models KeyError. -/
def pyGetItem : List (String × PyVal) → String → Option PyVal
  | [], _ => Option.none
  | (k', v) :: rest, k => if k' = k then some v else pyGetItem rest k

/-- The config-slot update of `send_metrics`: a `None` response (exhausted
retries) leaves the live config untouched; otherwise `response["config"]` is
stored wholesale under the lock — with no call to `validate_config`.  A
missing `config` key raises KeyError (`.error`). -/
def sendMetricsUpdate (current : PyVal)
    (response : Option (List (String × PyVal))) : Except Unit PyVal :=
  match response with
  | Option.none => .ok current
  | some body =>
    match pyGetItem body "config" with
    | some cfg => .ok cfg
    | Option.none => .error ()

theorem backoffWait_shift (ri tc f : Nat) :
    List.map (fun i => BackoffWait.mk (ri * (tc + 1 + i + 1)) false) (List.range f) =
    List.map ((fun i => BackoffWait.mk (ri * (tc + i + 1)) false) ∘ Nat.succ)
      (List.range f) := by
  apply List.map_congr_left
  intro i _
  simp only [Function.comp_apply, Nat.succ_eq_add_one]
  have hx : tc + 1 + i + 1 = tc + (i + 1) + 1 := by omega
  rw [hx]

theorem postAux_all_fail (transport : Nat → Option R) (ri : Nat)
    (hfail : ∀ k, transport k = Option.none) :
    ∀ (fuel tc : Nat),
      postAux transport (fun _ => false) ri tc fuel =
        ⟨tc + fuel, Option.none,
          (List.range fuel).map (fun i => ⟨ri * (tc + i + 1), false⟩)⟩ := by
  intro fuel
  induction fuel with
  | zero => intro tc; simp [postAux]
  | succ f ih =>
    intro tc
    simp only [postAux, hfail tc, ih (tc + 1)]
    rw [if_neg (by simp)]
    simp only [PostResult.mk.injEq, List.range_succ_eq_map, List.map_cons, List.map_map]
    refine ⟨by omega, trivial, ?_⟩
    refine List.cons_eq_cons.mpr ⟨by norm_num, ?_⟩
    exact backoffWait_shift ri tc f

theorem postAux_fail_then_succeed (transport : Nat → Option R) (ri : Nat)
    (r : R) :
    ∀ (N tc fuel : Nat), N < fuel →
      (∀ k, k < N → transport (tc + k) = Option.none) →
      transport (tc + N) = some r →
      postAux transport (fun _ => false) ri tc fuel =
        ⟨tc + N + 1, some r,
          (List.range N).map (fun i => ⟨ri * (tc + i + 1), false⟩)⟩ := by
  intro N
  induction N with
  | zero =>
    intro tc fuel hlt hfail hsucc
    cases fuel with
    | zero => omega
    | succ f =>
      simp only [Nat.add_zero] at hsucc
      simp [postAux, hsucc]
  | succ n ih =>
    intro tc fuel hlt hfail hsucc
    cases fuel with
    | zero => omega
    | succ f =>
      have h0 : transport tc = Option.none := by
        have := hfail 0 (by omega)
        simpa using this
      have hrec := ih (tc + 1) f (by omega)
        (fun k hk => by
          have := hfail (k + 1) (by omega)
          simpa [Nat.add_assoc, Nat.add_comm 1 k] using this)
        (by
          have : tc + 1 + n = tc + (n + 1) := by omega
          rw [this]
          exact hsucc)
      simp only [postAux, h0, hrec]
      rw [if_neg (by simp)]
      simp only [PostResult.mk.injEq, List.range_succ_eq_map, List.map_cons, List.map_map]
      refine ⟨by omega, trivial, ?_⟩
      refine List.cons_eq_cons.mpr ⟨by norm_num, ?_⟩
      exact backoffWait_shift ri tc n

theorem postAux_stopped (transport : Nat → Option R) (stopDuring : Nat → Bool)
    (ri : Nat) :
    ∀ (j tc fuel : Nat), j < fuel →
      (∀ k, k ≤ j → transport (tc + k) = Option.none) →
      (∀ k, k < j → stopDuring (tc + k) = false) →
      stopDuring (tc + j) = true →
      postAux transport stopDuring ri tc fuel =
        ⟨tc + j + 1, Option.none,
          (List.range j).map (fun i => ⟨ri * (tc + i + 1), false⟩)
            ++ [⟨ri * (tc + j + 1), true⟩]⟩ := by
  intro j
  induction j with
  | zero =>
    intro tc fuel hlt hfail _ hstop
    cases fuel with
    | zero => omega
    | succ f =>
      have h0 : transport tc = Option.none := by simpa using hfail 0 (by omega)
      simp only [Nat.add_zero] at hstop
      simp [postAux, h0, hstop]
  | succ n ih =>
    intro tc fuel hlt hfail hns hstop
    cases fuel with
    | zero => omega
    | succ f =>
      have h0 : transport tc = Option.none := by simpa using hfail 0 (by omega)
      have hs0 : stopDuring tc = false := by simpa using hns 0 (by omega)
      have hrec := ih (tc + 1) f (by omega)
        (fun k hk => by
          have := hfail (k + 1) (by omega)
          simpa [Nat.add_assoc, Nat.add_comm 1 k] using this)
        (fun k hk => by
          have := hns (k + 1) (by omega)
          simpa [Nat.add_assoc, Nat.add_comm 1 k] using this)
        (by
          have : tc + 1 + n = tc + (n + 1) := by omega
          rw [this]
          exact hstop)
      simp only [postAux, h0, hs0, hrec]
      rw [if_neg (by simp)]
      simp only [PostResult.mk.injEq, List.range_succ_eq_map, List.map_cons, List.map_map,
        List.cons_append]
      refine ⟨by omega, trivial, ?_⟩
      refine List.cons_eq_cons.mpr ⟨by norm_num, ?_⟩
      have hlast : tc + 1 + n + 1 = tc + (n + 1) + 1 := by omega
      rw [backoffWait_shift ri tc n, hlast]

/-! ## Connection establishment (src/fivenines_agent/synchronizer.py, `get_conn`)

`get_conn` reads `api_url()`; when the URL does **not** start with the
literal "localhost" it splits host and port on `:`, resolves A then AAAA
records, and for the first answered address attempts a TCP connect followed
by a TLS handshake with `server_hostname` set to the hostname; any exception
moves on to the next record type.  When the URL starts with "localhost" it
returns a plaintext `HTTPConnection` for the whole URL string.  The network
is abstracted as an oracle `NetEnv`. -/

inductive AddrFamily where
  | v4
  | v6
deriving Repr, DecidableEq

/-- The network oracle: DNS answers per record type (`none` models a
DNSException swallowed by `DNSResolver.resolve`), TCP connect success per
(family, address, port), TLS handshake success per (family, address,
server-name). -/
structure NetEnv where
  resolve : AddrFamily → Option (List String)
  tcpOk : AddrFamily → String → Int → Bool
  tlsOk : AddrFamily → String → String → Bool

/-- A connection object: plaintext local HTTP, or an HTTPS connection bound
to a TLS-wrapped socket with the recorded SNI hostname. -/
inductive Conn where
  | plainLocal (url : String)
  | tls (fam : AddrFamily) (addr : String) (sni : String)
deriving Repr, DecidableEq

/-- `url.split(":")[0]`. -/
def hostOf (url : String) : String :=
  String.mk (url.toList.takeWhile (fun c => c ≠ ':'))

/-- `port = 443` unless the URL contains `:`, in which case
`int(url.split(":")[1])`; a non-numeric port raises ValueError (`.error`),
uncaught inside `get_conn`. -/
def portOf (url : String) : Except Unit Int :=
  if url.toList.contains ':' then
    let seg := ((url.toList.dropWhile (fun c => c ≠ ':')).drop 1).takeWhile
      (fun c => c ≠ ':')
    match pyIntOfString (String.mk seg) with
    | some n => .ok n
    | Option.none => .error ()
  else .ok 443

/-- One iteration of the record-type loop: resolve, take the first answer,
TCP connect, TLS handshake with SNI = hostname; every failure falls through
(`continue`). -/
def tryFamily (env : NetEnv) (hostname : String) (port : Int) (fam : AddrFamily) :
    Option Conn :=
  match env.resolve fam with
  | Option.none => Option.none
  | some [] => Option.none
  | some (addr :: _) =>
    if env.tcpOk fam addr port then
      if env.tlsOk fam addr hostname then some (Conn.tls fam addr hostname)
      else Option.none
    else Option.none

/-- `get_conn`. -/
def getConn (env : NetEnv) (url : String) : Except Unit (Option Conn) :=
  if !startsWithChars url.toList "localhost".toList then
    let hostname := hostOf url
    match portOf url with
    | .error e => .error e
    | .ok port =>
      match tryFamily env hostname port .v4 with
      | some c => .ok (some c)
      | Option.none => .ok (tryFamily env hostname port .v6)
  else .ok (some (Conn.plainLocal url))

/-- A result shape consistent with the DNS/TLS path: no connection, or a TLS
connection (never plaintext). -/
def isDnsPathResult : Option Conn → Bool
  | Option.none => true
  | some (Conn.tls _ _ _) => true
  | some (Conn.plainLocal _) => false

/-! ## Synchronizer main loop (src/fivenines_agent/synchronizer.py, `run`)

`while not self._stop_event.is_set(): data = self.queue.get(); if data is
not None: self.send_metrics(data)`.  `stopAt k` is the stop-event state at
iteration `k`'s while-check and `got k` the entry returned by the blocking
`get` at iteration `k` (`none` is the shutdown sentinel the agent enqueues
last, whose arrival unblocks the consumer).  The pair returned is the list
of payloads sent from iteration `k` on and whether the loop exited within
`fuel` iterations. -/

def syncRunAux (stopAt : Nat → Bool) (got : Nat → Option D) :
    Nat → Nat → List D × Bool
  | _, 0 => ([], false)
  | k, fuel + 1 =>
    if stopAt k then ([], true)
    else
      match got k with
      | some d =>
        let rest := syncRunAux stopAt got (k + 1) fuel
        (d :: rest.1, rest.2)
      | Option.none => syncRunAux stopAt got (k + 1) fuel

/-! ## Collector registry dispatch (src/fivenines_agent/collectors.py)

`collect_metrics(config, data, telemetry)` walks the `COLLECTORS` table; for
each config key with a truthy value it runs every registered callable
through `_collect_with_telemetry`, which catches any exception: on success
`data[key]` gets the value and the telemetry entry records the error-log
lines captured during the call; on an exception `data[key]` gets `None` and
the exception text is appended to the captured errors.  A collector callable
is abstracted as a function from its kwargs dict to an outcome: `.ok v` for
a return value, `.error e` for a raised exception with text `e`, paired with
the error-log lines captured while it ran.  Wall-clock `duration_ms` is not
modelled. -/

/-- One telemetry entry: the recorded error list (`[]` models an absent
`errors` key). -/
structure TelemetryEntry where
  errors : List String
deriving Repr, DecidableEq

/-- `_collect_with_telemetry`, given the callable's outcome. -/
def collectWithTelemetry (outcome : Except String PyVal × List String) :
    PyVal × TelemetryEntry :=
  match outcome with
  | (.ok v, logs) => (v, ⟨logs⟩)
  | (.error e, logs) => (.none, ⟨logs ++ [e]⟩)

/-- One row of a registry entry: output key, the callable's behaviour as a
function of its kwargs, and the `pass_kwargs` flag. -/
structure CollectorItem where
  dataKey : String
  fn : List (String × PyVal) → Except String PyVal × List String
  passKwargs : Bool

/-- The kwargs handed to a callable: the config value when `pass_kwargs`
is set and the value is a dict, otherwise no kwargs. -/
def kwFor (cv : PyVal) (it : CollectorItem) : List (String × PyVal) :=
  match cv with
  | .dict d => if it.passKwargs then d else []
  | _ => []

/-- The snapshot and telemetry as maps (the Python dicts mutated in
place). -/
def runItems (cv : PyVal) (items : List CollectorItem)
    (maps : (String → Option PyVal) × (String → Option TelemetryEntry)) :
    (String → Option PyVal) × (String → Option TelemetryEntry) :=
  items.foldl
    (fun acc it =>
      let out := collectWithTelemetry (it.fn (kwFor cv it))
      (fun k => if k = it.dataKey then some out.1 else acc.1 k,
       fun k => if k = it.dataKey then some out.2 else acc.2 k))
    maps

/-- `collect_metrics` over an arbitrary registry (the concrete `COLLECTORS`
table instantiates `registry`). -/
def collectMetrics (registry : List (String × List CollectorItem))
    (config : List (String × PyVal))
    (maps : (String → Option PyVal) × (String → Option TelemetryEntry)) :
    (String → Option PyVal) × (String → Option TelemetryEntry) :=
  registry.foldl
    (fun acc e =>
      let cv := pyGetN config e.1
      if pyTruthy cv then runItems cv e.2 acc else acc)
    maps

/-- All data keys written by a registry, in execution order. -/
def registryKeys (registry : List (String × List CollectorItem)) : List String :=
  registry.foldr (fun e acc => e.2.map CollectorItem.dataKey ++ acc) []

theorem runItems_frame (cv : PyVal) (items : List CollectorItem) (maps) (k : String)
    (hk : k ∉ items.map CollectorItem.dataKey) :
    (runItems cv items maps).1 k = maps.1 k ∧
      (runItems cv items maps).2 k = maps.2 k := by
  induction items generalizing maps with
  | nil => exact ⟨rfl, rfl⟩
  | cons it rest ih =>
    simp only [List.map_cons, List.mem_cons, not_or] at hk
    have hrec := ih
      ((fun k => if k = it.dataKey then some (collectWithTelemetry (it.fn (kwFor cv it))).1
          else maps.1 k,
        fun k => if k = it.dataKey then some (collectWithTelemetry (it.fn (kwFor cv it))).2
          else maps.2 k)) hk.2
    unfold runItems at hrec ⊢
    simp only [List.foldl_cons]
    refine ⟨?_, ?_⟩
    · rw [hrec.1]
      simp [hk.1]
    · rw [hrec.2]
      simp [hk.1]

theorem runItems_write (cv : PyVal) (items : List CollectorItem) (maps)
    (it : CollectorItem) (hmem : it ∈ items)
    (hnodup : (items.map CollectorItem.dataKey).Nodup) :
    (runItems cv items maps).1 it.dataKey
        = some (collectWithTelemetry (it.fn (kwFor cv it))).1 ∧
      (runItems cv items maps).2 it.dataKey
        = some (collectWithTelemetry (it.fn (kwFor cv it))).2 := by
  induction items generalizing maps with
  | nil => cases hmem
  | cons hd rest ih =>
    simp only [List.map_cons, List.nodup_cons] at hnodup
    rcases List.mem_cons.mp hmem with heq | hmem'
    · subst heq
      have hnot : it.dataKey ∉ rest.map CollectorItem.dataKey := hnodup.1
      unfold runItems
      simp only [List.foldl_cons]
      have hframe := runItems_frame cv rest
        ((fun k => if k = it.dataKey then some (collectWithTelemetry (it.fn (kwFor cv it))).1
            else maps.1 k,
          fun k => if k = it.dataKey then some (collectWithTelemetry (it.fn (kwFor cv it))).2
            else maps.2 k)) it.dataKey hnot
      unfold runItems at hframe
      refine ⟨?_, ?_⟩
      · rw [hframe.1]; simp
      · rw [hframe.2]; simp
    · have hrec := ih
        ((fun k => if k = hd.dataKey then some (collectWithTelemetry (hd.fn (kwFor cv hd))).1
            else maps.1 k,
          fun k => if k = hd.dataKey then some (collectWithTelemetry (hd.fn (kwFor cv hd))).2
            else maps.2 k)) hmem' hnodup.2
      unfold runItems at hrec ⊢
      simp only [List.foldl_cons]
      exact hrec

theorem collectMetrics_frame (config : List (String × PyVal)) (k : String) :
    ∀ (registry) (maps), k ∉ registryKeys registry →
      (collectMetrics registry config maps).1 k = maps.1 k ∧
        (collectMetrics registry config maps).2 k = maps.2 k := by
  intro registry
  induction registry with
  | nil => exact fun maps _ => ⟨rfl, rfl⟩
  | cons e rest ih =>
    intro maps hk
    have hk' : k ∉ e.2.map CollectorItem.dataKey ∧ k ∉ registryKeys rest := by
      have : ¬ (k ∈ e.2.map CollectorItem.dataKey ∨ k ∈ registryKeys rest) := by
        intro hor
        apply hk
        show k ∈ e.2.map CollectorItem.dataKey ++ registryKeys rest
        exact List.mem_append.mpr hor
      exact not_or.mp this
    unfold collectMetrics
    simp only [List.foldl_cons]
    by_cases ht : pyTruthy (pyGetN config e.1)
    · rw [if_pos ht]
      have h1 := runItems_frame (pyGetN config e.1) e.2 maps k hk'.1
      have h2 := ih (runItems (pyGetN config e.1) e.2 maps) hk'.2
      unfold collectMetrics at h2
      exact ⟨h2.1.trans h1.1, h2.2.trans h1.2⟩
    · rw [if_neg ht]
      have h2 := ih maps hk'.2
      unfold collectMetrics at h2
      exact h2

theorem collectMetrics_write (config : List (String × PyVal)) (ck : String)
    (items : List CollectorItem) (it : CollectorItem) (hit : it ∈ items)
    (ht : pyTruthy (pyGetN config ck) = true) :
    ∀ (registry) (maps), (registryKeys registry).Nodup → (ck, items) ∈ registry →
      (collectMetrics registry config maps).1 it.dataKey
          = some (collectWithTelemetry (it.fn (kwFor (pyGetN config ck) it))).1 ∧
        (collectMetrics registry config maps).2 it.dataKey
          = some (collectWithTelemetry (it.fn (kwFor (pyGetN config ck) it))).2 := by
  intro registry
  induction registry with
  | nil => intro maps _ hmem; cases hmem
  | cons e rest ih =>
    intro maps hnodup hmem
    have hsplit : (e.2.map CollectorItem.dataKey).Nodup ∧ (registryKeys rest).Nodup ∧
        (e.2.map CollectorItem.dataKey).Disjoint (registryKeys rest) := by
      have : ((e.2.map CollectorItem.dataKey) ++ registryKeys rest).Nodup := hnodup
      exact List.nodup_append.mp this
    rcases List.mem_cons.mp hmem with heq | hmem'
    · have he2 : e.2 = items := by rw [← heq]
      have he1 : e.1 = ck := by rw [← heq]
      unfold collectMetrics
      simp only [List.foldl_cons]
      rw [he1, he2, if_pos ht]
      have hkmem : it.dataKey ∈ items.map CollectorItem.dataKey :=
        List.mem_map.mpr ⟨it, hit, rfl⟩
      have hkey : it.dataKey ∉ registryKeys rest := by
        intro hk
        exact (hsplit.2.2 (he2 ▸ hkmem)) hk
      have hw := runItems_write (pyGetN config ck) items maps it hit (he2 ▸ hsplit.1)
      have hf := collectMetrics_frame config it.dataKey rest
        (runItems (pyGetN config ck) items maps) hkey
      unfold collectMetrics at hf
      exact ⟨hf.1.trans hw.1, hf.2.trans hw.2⟩
    · unfold collectMetrics
      simp only [List.foldl_cons]
      by_cases hte : pyTruthy (pyGetN config e.1)
      · rw [if_pos hte]
        have hrec := ih (runItems (pyGetN config e.1) e.2 maps) hsplit.2.1 hmem'
        unfold collectMetrics at hrec
        exact hrec
      · rw [if_neg hte]
        have hrec := ih maps hsplit.2.1 hmem'
        unfold collectMetrics at hrec
        exact hrec

/-! ## Claim theorems -/

/-- C2 counterexample: with capacity 2, `put(1); put(2); put(3)` leaves the
queue holding all three items (the discard fires only once the size already
*exceeds* the capacity), so the queue neither holds at most 2 items nor
yields `2` then `3` as the claim states. -/
theorem claim_C2_counterexample :
    queueRun 2 [1, 2, 3] = [1, 2, 3] ∧
      ¬ (queueRun 2 [1, 2, 3]).length ≤ 2 ∧
      queueRun 2 [1, 2, 3] ≠ [2, 3] := by
  decide

/-- C2 (amended): after each `put` on a capacity-C queue, at most C + 1
items are held, and the contents are a suffix of the put sequence — the most
recently put items in their original relative order, the producer never
blocked; with capacity 2, `put(1..3)` keeps all three and `put(1..4)` drops
item 1 and yields 2, 3, 4. -/
theorem claim_C2_amended :
    (∀ (α : Type) (C : Nat) (ops : List α),
      (queueRun C ops).length ≤ C + 1 ∧ queueRun C ops <:+ ops)
    ∧ queueRun 2 [1, 2, 3] = [1, 2, 3]
    ∧ queueRun 2 [1, 2, 3, 4] = [2, 3, 4] := by
  refine ⟨fun α C ops => ?_, by decide, by decide⟩
  have h := queueRun_aux C ops [] [] (by simp) List.nil_suffix
  simpa [queueRun] using h

/-- C4: with the stop event never set, a transport failing the first N
attempts and succeeding on attempt N (N < retry limit R) yields exactly
N + 1 attempts and the successful response, whose `config` field is adopted
as the live config by `send_metrics`; a transport that always fails yields
exactly R attempts and returns None without raising (the loop falls out of
`while try_count < retry`). -/
theorem claim_C4_retry_counts :
    (∀ (R N ri : Nat) (resp : List (String × PyVal)) (cfgval : PyVal)
       (transport : Nat → Option (List (String × PyVal))) (cur : PyVal),
       N < R → (∀ k, k < N → transport k = Option.none) → transport N = some resp →
       pyGetItem resp "config" = some cfgval →
         (post R transport (fun _ => false) ri).attempts = N + 1 ∧
         (post R transport (fun _ => false) ri).result = some resp ∧
         sendMetricsUpdate cur (post R transport (fun _ => false) ri).result
           = .ok cfgval)
    ∧ (∀ (R ri : Nat) (transport : Nat → Option (List (String × PyVal))),
        (∀ k, transport k = Option.none) →
          (post R transport (fun _ => false) ri).attempts = R ∧
          (post R transport (fun _ => false) ri).result = Option.none) := by
  constructor
  · intro R N ri resp cfgval transport cur hNR hfail hsucc hcfg
    have hrun := postAux_fail_then_succeed transport ri resp N 0 R hNR
      (fun k hk => by simpa using hfail k hk) (by simpa using hsucc)
    unfold post
    rw [hrun]
    refine ⟨by simp, rfl, ?_⟩
    simp only [sendMetricsUpdate, hcfg]
  · intro R ri transport hfail
    have hrun := postAux_all_fail transport ri hfail R 0
    unfold post
    rw [hrun]
    exact ⟨by simp, rfl⟩

/-- C6: when `Synchronizer.run` dequeues the shutdown sentinel (`None`), it
performs no send for that entry, and — because `Agent._cleanup` sets the
stop event via `synchronizer.stop()` *before* enqueuing the sentinel, so the
stop event is set from the next while-check on — the loop terminates
immediately after, sending nothing further. -/
theorem claim_C6_sentinel_terminates (D : Type) (stopAt : Nat → Bool)
    (got : Nat → Option D) (k fuel : Nat)
    (hrun : stopAt k = false) (hsent : got k = Option.none)
    (hstop : stopAt (k + 1) = true) (hfuel : 2 ≤ fuel) :
    syncRunAux stopAt got k fuel = ([], true) := by
  obtain ⟨f, rfl⟩ : ∃ f, fuel = f + 2 := ⟨fuel - 2, by omega⟩
  simp [syncRunAux, hrun, hsent, hstop]

/-- C6 witness: a concrete shutdown trace — the sentinel is dequeued at
iteration 0 with the stop event set from iteration 1 on; nothing is sent and
the loop exits. -/
theorem claim_C6_witness :
    syncRunAux (fun n => decide (1 ≤ n)) (fun _ => (Option.none : Option Nat)) 0 2
      = ([], true) :=
  claim_C6_sentinel_terminates Nat _ _ 0 2 (by decide) rfl (by decide) (by omega)

/-- C7: each failed attempt k (1-indexed) hands `Event.wait` the nominal
duration `retry_interval * k` (linear backoff); if the stop event is set
during the backoff of attempt j + 1, that wait returns early (interrupted)
and the loop breaks with exactly j + 1 attempts and no further waits; with
the stop event never set, all R failed attempts wait their full linear
backoff. -/
theorem claim_C7_backoff :
    (∀ (T : Type) (R ri j : Nat) (transport : Nat → Option T)
       (stopDuring : Nat → Bool),
       j < R → (∀ k, k ≤ j → transport k = Option.none) →
       (∀ k, k < j → stopDuring k = false) → stopDuring j = true →
         post R transport stopDuring ri =
           ⟨j + 1, Option.none,
             (List.range j).map (fun i => ⟨ri * (i + 1), false⟩)
               ++ [⟨ri * (j + 1), true⟩]⟩)
    ∧ (∀ (T : Type) (R ri : Nat) (transport : Nat → Option T),
        (∀ k, transport k = Option.none) →
          (post R transport (fun _ => false) ri).waits =
            (List.range R).map (fun i => ⟨ri * (i + 1), false⟩)) := by
  constructor
  · intro T R ri j transport stopDuring hjR hfail hns hstop
    have hrun := postAux_stopped transport stopDuring ri j 0 R hjR
      (fun k hk => by simpa using hfail k hk)
      (fun k hk => by simpa using hns k hk) (by simpa using hstop)
    unfold post
    rw [hrun]
    simp
  · intro T R ri transport hfail
    have hrun := postAux_all_fail transport ri hfail R 0
    unfold post
    rw [hrun]
    simp

/-- A stub transport that fails once, then succeeds with a response carrying
a `config` field. -/
def stubTransport (k : Nat) : Option (List (String × PyVal)) :=
  if k = 1 then some [("config", PyVal.dict [("enabled", PyVal.bool true)])]
  else Option.none

/-- C4 witness: with retry limit 3 the one-failure transport takes exactly 2
attempts and its config is adopted; the always-failing transport takes
exactly 3 attempts and yields None. -/
theorem claim_C4_witness :
    (post 3 stubTransport (fun _ => false) 5).attempts = 2 ∧
    (post 3 stubTransport (fun _ => false) 5).result
      = some [("config", PyVal.dict [("enabled", PyVal.bool true)])] ∧
    sendMetricsUpdate PyVal.none (post 3 stubTransport (fun _ => false) 5).result
      = .ok (PyVal.dict [("enabled", PyVal.bool true)]) ∧
    (post 3 (fun _ => (Option.none : Option (List (String × PyVal))))
        (fun _ => false) 5).attempts = 3 ∧
    (post 3 (fun _ => (Option.none : Option (List (String × PyVal))))
        (fun _ => false) 5).result = Option.none := by
  have h1 := claim_C4_retry_counts.1 3 1 5
    [("config", PyVal.dict [("enabled", PyVal.bool true)])]
    (PyVal.dict [("enabled", PyVal.bool true)]) stubTransport PyVal.none
    (by omega)
    (by
      intro k hk
      have hk0 : k = 0 := by omega
      subst hk0
      rfl)
    rfl rfl
  have h2 := claim_C4_retry_counts.2 3 5
    (fun _ => (Option.none : Option (List (String × PyVal)))) (fun _ => rfl)
  exact ⟨h1.1, h1.2.1, h1.2.2, h2.1, h2.2⟩

/-- C7 witness: retry interval 2, transport always failing; the stop event
set from attempt index 1 on makes the run stop after 2 attempts, waits 2
then 4 (the latter interrupted); with no stop, 3 attempts wait 2, 4, 6 in
full. -/
theorem claim_C7_witness :
    post 5 (fun _ => (Option.none : Option Nat)) (fun k => decide (1 ≤ k)) 2
      = ⟨2, Option.none, [⟨2, false⟩, ⟨4, true⟩]⟩ ∧
    (post 3 (fun _ => (Option.none : Option Nat)) (fun _ => false) 2).waits
      = [⟨2, false⟩, ⟨4, false⟩, ⟨6, false⟩] := by
  have h1 := claim_C7_backoff.1 Nat 5 2 1 (fun _ => Option.none)
    (fun k => decide (1 ≤ k)) (by omega) (fun k _ => rfl)
    (by
      intro k hk
      have hk0 : k = 0 := by omega
      subst hk0
      rfl)
    (by decide)
  have h2 := claim_C7_backoff.2 Nat 3 2 (fun _ => Option.none) (fun _ => rfl)
  constructor
  · rw [h1]
    rfl
  · rw [h2]
    rfl

/-- A network oracle where DNS, TCP and TLS all succeed. -/
def env0 : NetEnv :=
  ⟨fun _ => some ["192.0.2.10"], fun _ _ _ => true, fun _ _ _ => true⟩

/-- C5 counterexample: `get_conn` branches on `url.startswith("localhost")`,
not on the host literal being `"localhost"`.  For the URL `"localhostx"` the
host literal is `"localhostx"` ≠ `"localhost"`, yet even with DNS/TCP/TLS
all available the code returns the plaintext local connection instead of
walking the A/AAAA + TLS path the claim requires for every other host. -/
theorem claim_C5_counterexample :
    hostOf "localhostx" ≠ "localhost" ∧
    getConn env0 "localhostx" = .ok (some (.plainLocal "localhostx")) ∧
    isDnsPathResult (some (.plainLocal "localhostx")) = false := by
  refine ⟨by decide, rfl, rfl⟩

/-- C5 (amended): when the configured URL *starts with* the literal
"localhost", `get_conn` returns a plaintext local connection, skipping
DNS/TLS; otherwise (with a parseable port) it consults A records first —
a successful IPv4 connection is returned without ever consulting AAAA —
falls back to IPv6 only when the IPv4 leg fails, returns no connection when
both fail, and every TLS connection it returns was made to the first
resolved address of its family after a TCP connect, with SNI set to the
hostname part of the URL. -/
theorem claim_C5_amended (env : NetEnv) (url : String) (p : Int) :
    (startsWithChars url.toList "localhost".toList = true →
      getConn env url = .ok (some (.plainLocal url)))
    ∧ (startsWithChars url.toList "localhost".toList = false → portOf url = .ok p →
        (∀ c, tryFamily env (hostOf url) p .v4 = some c →
            getConn env url = .ok (some c))
        ∧ (tryFamily env (hostOf url) p .v4 = Option.none →
            getConn env url = .ok (tryFamily env (hostOf url) p .v6))
        ∧ (∀ fam c, tryFamily env (hostOf url) p fam = some c →
            ∃ addr rest, env.resolve fam = some (addr :: rest) ∧
              env.tcpOk fam addr p = true ∧ env.tlsOk fam addr (hostOf url) = true ∧
              c = .tls fam addr (hostOf url))) := by
  constructor
  · intro hloc
    unfold getConn
    rw [hloc]
    rfl
  · intro hloc hport
    refine ⟨?_, ?_, ?_⟩
    · intro c hc
      unfold getConn
      rw [hloc]
      simp only [Bool.not_false, if_true, hport, hc]
    · intro hc
      unfold getConn
      rw [hloc]
      simp only [Bool.not_false, if_true, hport, hc]
    · intro fam c hc
      unfold tryFamily at hc
      split at hc
      · cases hc
      · cases hc
      · rename_i addr rest hres
        split at hc
        · rename_i htcp
          split at hc
          · rename_i htls
            simp only [Option.some.injEq] at hc
            exact ⟨addr, rest, hres, htcp, htls, hc.symm⟩
          · cases hc
        · cases hc

/-- C5 witness: a URL starting with "localhost" gets the plaintext local
connection; a regular hostname with the all-success oracle gets a TLS
connection to the first A answer with SNI = the hostname. -/
theorem claim_C5_witness :
    getConn env0 "localhost:8080" = .ok (some (.plainLocal "localhost:8080")) ∧
    getConn env0 "api.fivenines.io"
      = .ok (some (.tls .v4 "192.0.2.10" "api.fivenines.io")) := by
  constructor
  · exact (claim_C5_amended env0 "localhost:8080" 8080).1 (by decide)
  · exact ((claim_C5_amended env0 "api.fivenines.io" 443).2 (by decide) rfl).1
      (Conn.tls .v4 "192.0.2.10" "api.fivenines.io") rfl

/-- C8 counterexample: `http://127.0.0.2/` addresses the loopback interface
(127.0.0.0/8), yet the validator's hostname allow-list (`localhost`,
`127.0.0.1`, `::1`) rejects it and disables the collector, so "a loopback
URL is preserved unchanged" fails at this input. -/
theorem claim_C8_counterexample :
    specIsLoopbackUrl "http://127.0.0.2/" = true ∧
    sanitizeNginx [("status_page_url", .str "http://127.0.0.2/")] = .none := by
  exact ⟨rfl, rfl⟩

/-- C8 (amended): a URL whose parsed hostname lowercases to exactly
`localhost`, `127.0.0.1` or `::1` is preserved unchanged in the validated
nginx config; any other hostname — including other loopback addresses such
as `127.0.0.2` — and any URL without a parseable hostname disables the
collector; in particular `http://169.254.169.254/` yields disabled and
`http://127.0.0.1:8080/x` is preserved. -/
theorem claim_C8_amended :
    (∀ (url : String) (hn : String), urlHostname url = some hn →
        (lowerStr hn = "localhost" ∨ lowerStr hn = "127.0.0.1" ∨ lowerStr hn = "::1") →
        sanitizeNginx [("status_page_url", .str url)]
          = .dict [("status_page_url", .str url)])
    ∧ (∀ (url : String) (hn : String), urlHostname url = some hn →
        ¬ (lowerStr hn = "localhost" ∨ lowerStr hn = "127.0.0.1" ∨ lowerStr hn = "::1") →
        sanitizeNginx [("status_page_url", .str url)] = .none)
    ∧ (∀ url : String, urlHostname url = Option.none →
        sanitizeNginx [("status_page_url", .str url)] = .none)
    ∧ sanitizeNginx [("status_page_url", .str "http://169.254.169.254/")] = .none
    ∧ sanitizeNginx [("status_page_url", .str "http://127.0.0.1:8080/x")]
        = .dict [("status_page_url", .str "http://127.0.0.1:8080/x")] := by
  refine ⟨?_, ?_, ?_, rfl, rfl⟩
  · intro url hn hparse hmem
    have hl : isLoopbackUrl url = true := by
      unfold isLoopbackUrl
      rw [hparse]
      simp [LOOPBACK_HOSTS]
      tauto
    unfold sanitizeNginx
    simp only [pyGet, String.reduceEq, reduceIte, isLoopbackUrlPy, hl, if_true]
  · intro url hn hparse hmem
    have hl : isLoopbackUrl url = false := by
      unfold isLoopbackUrl
      rw [hparse]
      simp [LOOPBACK_HOSTS]
      tauto
    unfold sanitizeNginx
    simp only [pyGet, String.reduceEq, reduceIte, isLoopbackUrlPy, hl]
    rfl
  · intro url hparse
    have hl : isLoopbackUrl url = false := by
      unfold isLoopbackUrl
      rw [hparse]
    unfold sanitizeNginx
    simp only [pyGet, String.reduceEq, reduceIte, isLoopbackUrlPy, hl]
    rfl

/-- C8 witness: the amended theorem applied at `http://LocalHost:2019`
(hostname lowercases to `localhost`, preserved) and at
`http://10.0.0.8/status` (non-loopback hostname, disabled). -/
theorem claim_C8_witness :
    sanitizeNginx [("status_page_url", .str "http://LocalHost:2019")]
      = .dict [("status_page_url", .str "http://LocalHost:2019")] ∧
    sanitizeNginx [("status_page_url", .str "http://10.0.0.8/status")] = .none := by
  constructor
  · exact claim_C8_amended.1 "http://LocalHost:2019" "localhost" rfl (by decide)
  · exact claim_C8_amended.2.1 "http://10.0.0.8/status" "10.0.0.8" rfl (by decide)

/-- C9: the validated interval always lies in [30, 3600]; an integer below
30 clamps to 30, one above 3600 clamps to 3600, an in-range integer passes
through unchanged, and a value `int()` rejects falls back to the default
60. -/
theorem claim_C9_interval_validation (raw cfg : List (String × PyVal))
    (h : validateConfig raw = .ok cfg) :
    ∃ r : Int, pyGet cfg "interval" PyVal.none = .int r ∧ 30 ≤ r ∧ r ≤ 3600 ∧
      (∀ n : Int, pyGet raw "interval" (.int 60) = .int n →
        (n < 30 → r = 30) ∧ (3600 < n → r = 3600) ∧
        (30 ≤ n → n ≤ 3600 → r = n)) ∧
      (pyToInt (pyGet raw "interval" (.int 60)) = Option.none → r = 60) := by
  obtain ⟨d, rfl⟩ := validateConfig_ok_shape raw cfg h
  refine ⟨clamp (pyGet raw "interval" (.int 60)) 30 3600 60, ?_, ?_, ?_, ?_, ?_⟩
  · simp [validateConfigOk, pyGet]
  · exact (clamp_mem _ 30 3600 60 (by norm_num) (by norm_num)).1
  · exact (clamp_mem _ 30 3600 60 (by norm_num) (by norm_num)).2
  · intro n hn
    rw [hn, clamp_int_eval]
    refine ⟨?_, ?_, ?_⟩
    · intro hlt
      simp [hlt]
    · intro hgt
      have hnlt : ¬ n < 30 := by omega
      simp [hnlt, hgt]
    · intro h1 h2
      have hnlt : ¬ n < 30 := by omega
      have hngt : ¬ n > 3600 := by omega
      simp [hnlt, hngt]
  · intro hnone
    exact clamp_non_numeric _ 30 3600 60 hnone

/-- C9 witness: the raw config with interval 10 validates, and the theorem
applies to it (here the clamp yields the lower bound 30). -/
theorem claim_C9_witness :
    ∃ r : Int,
      pyGet (validateConfigOk [("interval", PyVal.int 10)] []) "interval" PyVal.none
          = .int r ∧ 30 ≤ r ∧ r ≤ 3600 ∧
        (∀ n : Int,
          pyGet [("interval", PyVal.int 10)] "interval" (.int 60) = .int n →
          (n < 30 → r = 30) ∧ (3600 < n → r = 3600) ∧
          (30 ≤ n → n ≤ 3600 → r = n)) ∧
        (pyToInt (pyGet [("interval", PyVal.int 10)] "interval" (.int 60))
            = Option.none → r = 60) :=
  claim_C9_interval_validation [("interval", PyVal.int 10)]
    (validateConfigOk [("interval", PyVal.int 10)] []) rfl

/-- C10: `validate_config` is idempotent.  Revalidating any successful
output returns it unchanged (the sanitized config is a fixed point), and in
Kleisli form `validate_config(validate_config(raw)) = validate_config(raw)`
for every raw dict (the single failure mode — a truthy non-dict
`request_options`, which raises — propagates identically on both sides). -/
theorem claim_C10_validate_config_idempotent (raw : List (String × PyVal)) :
    (validateConfig raw).bind validateConfig = validateConfig raw ∧
    (∀ cfg, validateConfig raw = .ok cfg → validateConfig cfg = .ok cfg) := by
  constructor
  · exact validateConfig_bind_self raw
  · intro cfg h
    obtain ⟨d, rfl⟩ := validateConfig_ok_shape raw cfg h
    exact validateConfigOk_fix raw d

/-- C10 witness: the validated form of the empty raw config is itself a
fixed point of validation. -/
theorem claim_C10_witness :
    validateConfig (validateConfigOk [] []) = .ok (validateConfigOk [] []) :=
  (claim_C10_validate_config_idempotent []).2 (validateConfigOk [] []) rfl

/-- A server-supplied config whose nginx section points at a non-loopback
URL; `validate_config` would disable the nginx collector on it. -/
def attackerConfig : List (String × PyVal) :=
  [("enabled", PyVal.bool true),
   ("nginx", PyVal.dict [("status_page_url", PyVal.str "http://attacker.example/")])]

/-- The parsed body of a successful /collect response carrying that
config. -/
def attackerResponse : List (String × PyVal) :=
  [("config", PyVal.dict attackerConfig)]

/-- C1: `Synchronizer.send_metrics` stores `response["config"]` into the
shared config slot verbatim — `validate_config` is never called on it.  At
this concrete successful /collect response the stored config still carries
the non-loopback nginx URL, whereas validation of the same dict disables
(nulls) the nginx section: the raw, unvalidated server config is what
consumers read. -/
theorem claim_C1_raw_config_stored :
    sendMetricsUpdate (PyVal.dict [("enabled", PyVal.none)]) (some attackerResponse)
        = .ok (PyVal.dict attackerConfig)
    ∧ pyGetN attackerConfig "nginx"
        = PyVal.dict [("status_page_url", PyVal.str "http://attacker.example/")]
    ∧ (validateConfig attackerConfig).map (fun out => pyGetN out "nginx")
        = .ok PyVal.none := by
  refine ⟨rfl, rfl, ?_⟩
  rfl

/-- The fault-isolation property of the telemetry wrapper
(`_collect_with_telemetry` / `collect_metrics`, collectors.py:84-128): for
any registry with distinct output keys, every enabled collector that raises
contributes a `None` value under its key and a telemetry entry with a
non-empty error list (the exception text appended to the captured error
logs), while every enabled collector that returns a value contributes
exactly that value — regardless of what the other collectors do.  Note that
this dispatch path is invoked only by the test suite: `Agent.run` in
src/fivenines_agent/agent.py calls collectors inline instead (see
`agentTickCollect` below). -/
theorem collectMetrics_fault_isolation
    (registry : List (String × List CollectorItem)) (config : List (String × PyVal))
    (maps : (String → Option PyVal) × (String → Option TelemetryEntry))
    (ck : String) (items : List CollectorItem) (it : CollectorItem)
    (hnodup : (registryKeys registry).Nodup) (hmem : (ck, items) ∈ registry)
    (hit : it ∈ items) (ht : pyTruthy (pyGetN config ck) = true) :
    (∀ e logs, it.fn (kwFor (pyGetN config ck) it) = (.error e, logs) →
        (collectMetrics registry config maps).1 it.dataKey = some PyVal.none ∧
        ∃ te, (collectMetrics registry config maps).2 it.dataKey = some te ∧
          te.errors ≠ []) ∧
    (∀ v logs, it.fn (kwFor (pyGetN config ck) it) = (.ok v, logs) →
        (collectMetrics registry config maps).1 it.dataKey = some v) := by
  have hw := collectMetrics_write config ck items it hit ht registry maps hnodup hmem
  constructor
  · intro e logs hfail
    rw [hfail] at hw
    refine ⟨hw.1, ⟨⟨logs ++ [e]⟩, hw.2, by simp⟩⟩
  · intro v logs hok
    rw [hok] at hw
    exact hw.1

/-- A registry with one raising collector and one succeeding collector. -/
def cpuFailItem : CollectorItem :=
  ⟨"cpu", fun _ => (.error "boom", []), false⟩

def memItem : CollectorItem :=
  ⟨"memory", fun _ => (.ok (PyVal.int 5), []), false⟩

def registry0 : List (String × List CollectorItem) :=
  [("cpu", [cpuFailItem]), ("memory", [memItem])]

def config0 : List (String × PyVal) :=
  [("cpu", PyVal.bool true), ("memory", PyVal.bool true)]

def maps0 : (String → Option PyVal) × (String → Option TelemetryEntry) :=
  (fun _ => Option.none, fun _ => Option.none)

/-- The wrapper's fault isolation at a concrete registry: the raising `cpu`
collector yields a null snapshot value and a non-empty telemetry error
list, while `memory` is still populated with its collected value. -/
theorem collectMetrics_fault_isolation_example :
    ((collectMetrics registry0 config0 maps0).1 "cpu" = some PyVal.none ∧
      ∃ te, (collectMetrics registry0 config0 maps0).2 "cpu" = some te ∧
        te.errors ≠ []) ∧
    (collectMetrics registry0 config0 maps0).1 "memory" = some (PyVal.int 5) := by
  have h1 := collectMetrics_fault_isolation registry0 config0 maps0
    "cpu" [cpuFailItem] cpuFailItem (by decide)
    (List.mem_cons_self _ _) (List.mem_cons_self _ _) rfl
  have h2 := collectMetrics_fault_isolation registry0 config0 maps0
    "memory" [memItem] memItem (by decide)
    (List.mem_cons_of_mem _ (List.mem_cons_self _ _)) (List.mem_cons_self _ _) rfl
  exact ⟨h1.1 "boom" [] rfl, h2.2 (PyVal.int 5) [] rfl⟩

/-! ## The inline tick of `Agent.run` (src/fivenines_agent/agent.py:192-270)

`Agent.run` does **not** route collectors through the telemetry wrapper: the
conditional-metrics block invokes each enabled collector inline
(`data[k] = fn(**kwargs)`).  The whole while loop sits inside
`try: ... except Exception as e: log(...)` with `finally: self._cleanup()`
(agent.py:266-270), so the first collector exception aborts the tick — the
partially built snapshot is discarded, never enqueued, the remaining
collectors never run, no telemetry is recorded — and the loop terminates
through the except/finally path.  The registry rows give the same ordered
(config key, data keys, callable) chain as the inline `if
self.config.get(...)` sequence; a callable's captured-log component is
ignored because the inline path performs no log capture. -/

/-- The conditional-collection phase of one `Agent.run` tick: sequential
inline calls, the first raised exception propagating out (`.error`). -/
def agentTickCollect (registry : List (String × List CollectorItem))
    (config : List (String × PyVal)) (data : String → Option PyVal) :
    Except String (String → Option PyVal) :=
  registry.foldlM
    (fun acc e =>
      let cv := pyGetN config e.1
      if pyTruthy cv then
        e.2.foldlM
          (fun acc2 it =>
            match (it.fn (kwFor cv it)).1 with
            | .ok v =>
              .ok (fun k => if k = it.dataKey then some v else acc2 k)
            | .error err => .error err)
          acc
      else .ok acc)
    data

/-- C3: at the failing input — a tick whose config enables `cpu` and
`memory`, where the `cpu` collector raises "boom" and the `memory`
collector would return a value — the inline collection phase of `Agent.run`
aborts with the escaped exception: no snapshot is produced (so nothing is
enqueued and the run-level except/finally terminates the tick loop), and
`memory` is never populated; there is no telemetry at all.  The unwired
telemetry wrapper (`collect_metrics`, collectors.py, called only from the
test suite) would have produced exactly the claimed behaviour at the same
input: a null `cpu` value, a non-empty error list in `cpu`'s telemetry
entry, and `memory` populated with its collected value. -/
theorem claim_C3_error_escapes_tick :
    agentTickCollect registry0 config0 (fun _ => Option.none) = .error "boom"
    ∧ (∀ d, agentTickCollect registry0 config0 (fun _ => Option.none) ≠ .ok d)
    ∧ (collectMetrics registry0 config0 maps0).1 "cpu" = some PyVal.none
    ∧ (∃ te, (collectMetrics registry0 config0 maps0).2 "cpu" = some te ∧
        te.errors ≠ [])
    ∧ (collectMetrics registry0 config0 maps0).1 "memory" = some (PyVal.int 5) := by
  have h1 : agentTickCollect registry0 config0 (fun _ => Option.none)
      = .error "boom" := rfl
  refine ⟨h1, ?_, rfl, ⟨⟨["boom"]⟩, rfl, by simp⟩, rfl⟩
  intro d h
  rw [h1] at h
  cases h
